import Mathlib

/-!
Verification of the financial-dashboard price pipeline (src/app.py).

Shallow embedding conventions:
- A calendar day is counted in days since 1970-01-01 (a Thursday);
  Python's `date.weekday()` has Monday = 0, so `weekday d = (d + 3) % 7`.
- Pandas timestamps are wall-clock seconds since the epoch plus an optional
  timezone tag (`none` = tz-naive); `tz_localize(None)` keeps the wall clock
  and drops the tag.
- Close prices are modelled as integers (`Price`): no price arithmetic occurs
  in the program, so only presence/absence (pandas NaN = `Option.none` in a
  raw column) and equality matter.
- Provider calls (`yf.download` / `Ticker.history`) return
  `Except String (Option Frame)`: `.error` is a raised exception with its
  message, `.ok none` is a `None` response, `.ok (some f)` a DataFrame.
- `fetch_history` additionally returns the list of strategies that actually
  invoked the provider (`calls`) and the stderr diagnostics (`log`), making
  short-circuiting and the logging behaviour observable in theorems.
-/

namespace FinDash

/-- Python `date.weekday()`: Monday = 0 .. Sunday = 6; day 0 is a Thursday.
Calendar days are plain `Int` values, counting days since the epoch. -/
def weekday (d : Int) : Int := (d + 3) % 7

/-- Model of `get_last_trading_day` (app.py lines 128-134): most recent
weekday, mapping Saturday back one day and Sunday back two. -/
def get_last_trading_day (d : Int) : Int :=
  if weekday d = 5 then d - 1
  else if weekday d = 6 then d - 2
  else d

/-- Model of `pick_interval` (app.py lines 136-147). -/
def pick_interval (days : Int) : String :=
  if days ≤ 2 then "5m"
  else if days ≤ 10 then "30m"
  else if days ≤ 60 then "60m"
  else "1d"

/-- Model of the `RANGE_DAYS` table (app.py lines 336-338). -/
def RANGE_DAYS : List (String × Int) :=
  [("1d", 1), ("1w", 7), ("1m", 30), ("3m", 90), ("6m", 180), ("1y", 365), ("2y", 730)]

/-- Python `dict.get(key, 90)` on `RANGE_DAYS`. -/
def range_days_get (k : String) : Int :=
  ((RANGE_DAYS.find? (fun p => p.1 == k)).map Prod.snd).getD 90

/-- ASCII upper-casing of one character, as Python `str.upper` does on the
ticker and range keywords occurring here (all ASCII). -/
def asciiUpper (c : Char) : Char :=
  if 97 ≤ c.toNat ∧ c.toNat ≤ 122 then Char.ofNat (c.toNat - 32) else c

/-- ASCII lower-casing of one character, for Python `str.lower`. -/
def asciiLower (c : Char) : Char :=
  if 65 ≤ c.toNat ∧ c.toNat ≤ 90 then Char.ofNat (c.toNat + 32) else c

/-- Python `str.upper` over the ASCII strings used by the app. -/
def pyUpper (s : String) : String := ⟨s.data.map asciiUpper⟩

/-- Python `str.lower` over the ASCII strings used by the app. -/
def pyLower (s : String) : String := ⟨s.data.map asciiLower⟩

/-- Whitespace characters stripped by Python `str.strip`. -/
def isWhitespaceChar (c : Char) : Bool := c == ' ' || c == '\t' || c == '\n' || c == '\r'

/-- Python `str.strip` (whitespace at both ends). -/
def pyStrip (s : String) : String :=
  ⟨((s.data.dropWhile isWhitespaceChar).reverse.dropWhile isWhitespaceChar).reverse⟩

/-- Model of `compute_window_endpoints` (app.py lines 339-345). `range_key`
is `Option String` because the Dash callback may hand over `None`. -/
def compute_window_endpoints (range_key : Option String) (end_date : Int) : Int × Int :=
  if pyLower (range_key.getD "") = "1d" then
    let e := get_last_trading_day end_date
    (e - 1, e)
  else
    (end_date - range_days_get (pyLower (range_key.getD "3m")), end_date)

/-- Window planning as performed by `update_chart` (app.py lines 489-490):
the reference date is first rolled back to the last trading day, then
`compute_window_endpoints` is applied. -/
def plan_window (range_key : Option String) (reference : Int) : Int × Int :=
  compute_window_endpoints range_key (get_last_trading_day reference)

theorem weekday_nonneg (d : Int) : 0 ≤ weekday d := by
  unfold weekday; omega

theorem weekday_lt_seven (d : Int) : weekday d < 7 := by
  unfold weekday; omega

theorem get_last_trading_day_weekday (d : Int) : weekday (get_last_trading_day d) < 5 := by
  simp only [get_last_trading_day, weekday]
  split_ifs <;> omega

theorem get_last_trading_day_le (d : Int) :
    d - 2 ≤ get_last_trading_day d ∧ get_last_trading_day d ≤ d := by
  simp only [get_last_trading_day, weekday]
  split_ifs <;> omega

theorem get_last_trading_day_idem (d : Int) :
    get_last_trading_day (get_last_trading_day d) = get_last_trading_day d := by
  simp only [get_last_trading_day, weekday]
  split_ifs <;> omega

/-- Pandas timestamp: wall-clock seconds since the epoch plus an optional
timezone tag. `tz = none` models a tz-naive timestamp. -/
structure Timestamp where
  wall : Int
  tz : Option Int
deriving DecidableEq

/-- Pandas `tz_localize(None)`: drop the timezone tag, keep the wall clock
(a no-op on an already-naive timestamp). -/
def stripTz (t : Timestamp) : Timestamp := { t with tz := none }

/-- Pandas `floor("min")` on a naive timestamp. -/
def floorMin (t : Timestamp) : Timestamp := { t with wall := t.wall - t.wall % 60 }

/-- Pandas `normalize()` / `floor("D")`: midnight of the timestamp's day. -/
def floorDay (t : Timestamp) : Timestamp := { t with wall := t.wall - t.wall % 86400 }

/-- App.py lines 176-179: daily data is floored to the day, intraday to the
minute. -/
def floorTs (interval : String) (t : Timestamp) : Timestamp :=
  if interval = "1d" then floorDay t else floorMin t

/-- Close prices: no arithmetic is performed on them anywhere in the
program, so an integer stands in for the float value; a missing (NaN) cell
of a raw column is `Option.none`. -/
abbrev Price := Int

/-- Label carried by a pandas column or series: a flat name or a
(field, symbol) pair of a MultiIndex column. -/
inductive ColKey where
  | flat (name : String)
  | pair (field symbol : String)
deriving DecidableEq

/-- Columns of a raw provider DataFrame: either flat OHLC-like columns or a
(field, symbol) MultiIndex, the two shapes of §4.2 of the design. -/
inductive Cols where
  | flat (cs : List (String × List (Option Price)))
  | multi (cs : List ((String × String) × List (Option Price)))
deriving DecidableEq

/-- Raw provider DataFrame: a row index of timestamps plus columns. -/
structure Frame where
  index : List Timestamp
  cols : Cols
deriving DecidableEq

/-- Pandas Series of close prices: an optional name plus (timestamp, value)
rows. Prices here are plain (non-optional): rows with NaN never survive
`to_close_series`. -/
structure CSeries where
  name : Option ColKey
  data : List (Timestamp × Price)
deriving DecidableEq

/-- Close-column selection of app.py lines 165-169: on MultiIndex columns
take the first `(Close, ·)` pair (a missing one makes `df.get("Close", ...)`
fall back to the empty default); on flat columns take the `Close` column. -/
def selectClose (f : Frame) : Option (ColKey × List (Option Price)) :=
  match f.cols with
  | .multi cs =>
    match cs.find? (fun c => c.1.1 == "Close") with
    | some c => some (.pair c.1.1 c.1.2, c.2)
    | none => none
  | .flat cs =>
    match cs.find? (fun c => c.1 == "Close") with
    | some c => some (.flat c.1, c.2)
    | none => none

/-- Model of the `to_close_series` normalization closure (app.py lines
162-181), parameterized by the enclosing `interval`: select the close
column, drop NaN rows, strip the timezone, floor timestamps to the interval
granularity and label the result `Close`. An absent or empty frame and a
missing close column give the empty float64 series (unnamed). -/
def to_close_series (interval : String) (df : Option Frame) : CSeries :=
  match df with
  | none => ⟨none, []⟩
  | some f =>
    if f.index = [] then ⟨none, []⟩
    else
      match selectClose f with
      | none => ⟨none, []⟩
      | some (key, vals) =>
        let s := (f.index.zip vals).filterMap (fun tv => tv.2.map (fun p => (tv.1, p)))
        if s = [] then ⟨some key, []⟩
        else ⟨some (.flat "Close"), s.map (fun tp => (floorTs interval (stripTz tp.1), tp.2))⟩

/-- Day (midnight wall clock) of the most recent session present in a
series: `s.index.normalize().max()` of app.py lines 193 and 238. -/
def lastSessionWall (s : CSeries) : Int :=
  match s.data.map (fun tp => (floorDay tp.1).wall) with
  | [] => 0
  | w :: ws => ws.foldl max w

/-- Restriction of a series to its most recent session with bars:
`s[s.index.normalize() == last_session]` of app.py lines 194 and 239. -/
def sessionFilter (s : CSeries) : CSeries :=
  ⟨s.name, s.data.filter (fun tp => (floorDay tp.1).wall == lastSessionWall s)⟩

/-- Midnight wall-clock seconds of a calendar day: `pd.Timestamp(date)`. -/
def dateWall (d : Int) : Int := d * 86400

/-- The upstream market-data client, one function per entry point used by
`fetch_history`: `yf.download(period=..)`, `yf.download(start=.., end=..)`
and `yf.Ticker(..).history(start=.., end=..)`. A call either raises
(`.error` with the exception text), returns `None` (`.ok none`) or returns
a DataFrame. The ticker is fixed per fetch, so it is not a parameter here. -/
structure Provider where
  downloadPeriod : String → String → Except String (Option Frame)
  downloadRange : Int → Int → String → Except String (Option Frame)
  history : Int → Int → String → Except String (Option Frame)

/-- Observable outcome of one `fetch_history` run: the returned series, the
strategies that reached their provider call (in order), and the stderr
diagnostic lines. -/
structure FetchResult where
  series : CSeries
  calls : List String
  log : List String
deriving DecidableEq

/-- Python `(end - start).days or 1` of app.py line 159: a zero-day window
counts as one day (`0` is falsy), anything else passes through. -/
def windowDays (start end_ : Int) : Int :=
  if end_ - start = 0 then 1 else end_ - start

/-- Period keyword of the intraday fallback, app.py line 229. -/
def periodKeyword (days : Int) : String := if days ≤ 7 then "7d" else "30d"

/-- Stderr line of app.py line 198. -/
def fastErrLine (e : String) : String :=
  "[fetch_history] 1D intraday session pull error: " ++ e

/-- Stderr line of app.py line 213. -/
def directErrLine (e : String) : String :=
  "[fetch_history] download error: " ++ e

/-- Stderr line of app.py line 224. -/
def historyErrLine (e : String) : String :=
  "[fetch_history] history error: " ++ e

/-- Stderr line of app.py line 249. -/
def periodErrLine (e : String) : String :=
  "[fetch_history] intraday period fallback error: " ++ e

/-- Stderr line of app.py line 251, printed when every strategy came back
empty. -/
def noDataLine (ticker : String) (start end_ : Int) (interval : String) : String :=
  "[fetch_history] no data for " ++ ticker ++ " " ++ toString start ++ "→"
    ++ toString end_ ++ " (interval " ++ interval ++ ")"

/-- Strategy 1 of `fetch_history` (app.py lines 183-198), the single-session
intraday fast path: only for an intraday one-day window, pull a 5-day
trailing period and keep the most recent session with bars. Result value
`none` means "fall through to the next strategy". -/
def fastPathAttempt (p : Provider) (interval : String) (days : Int) :
    Option CSeries × List String × List String :=
  if interval ≠ "1d" ∧ days = 1 then
    match p.downloadPeriod "5d" interval with
    | .error e => (none, ["fastpath"], [fastErrLine e])
    | .ok d0 =>
      let s0 := to_close_series interval d0
      if s0.data = [] then (none, ["fastpath"], [])
      else
        let s0f := sessionFilter s0
        if s0f.data = [] then (none, ["fastpath"], [])
        else (some s0f, ["fastpath"], [])
  else (none, [], [])

/-- Strategy 2 of `fetch_history` (app.py lines 203-213): direct download
with explicit start and (exclusive, pre-widened) end. -/
def directAttempt (p : Provider) (start end_inclusive : Int) (interval : String) :
    Option CSeries × List String × List String :=
  match p.downloadRange start end_inclusive interval with
  | .error e => (none, ["direct"], [directErrLine e])
  | .ok d =>
    let s := to_close_series interval d
    if s.data = [] then (none, ["direct"], []) else (some s, ["direct"], [])

/-- Strategy 3 of `fetch_history` (app.py lines 215-224): same window through
the alternate `Ticker(..).history` client path. -/
def historyAttempt (p : Provider) (start end_inclusive : Int) (interval : String) :
    Option CSeries × List String × List String :=
  match p.history start end_inclusive interval with
  | .error e => (none, ["history"], [historyErrLine e])
  | .ok h =>
    let s := to_close_series interval h
    if s.data = [] then (none, ["history"], []) else (some s, ["history"], [])

/-- Strategy 4 of `fetch_history` (app.py lines 226-249), the period-based
intraday fallback: trailing 7d/30d pull, then either the last-session
restriction (one-day window) or the `[start, end + 1)` calendar slice. -/
def periodAttempt (p : Provider) (start end_inclusive : Int) (interval : String) (days : Int) :
    Option CSeries × List String × List String :=
  if interval ≠ "1d" then
    match p.downloadPeriod (periodKeyword days) interval with
    | .error e => (none, ["period"], [periodErrLine e])
    | .ok d2 =>
      let s2 := to_close_series interval d2
      if s2.data = [] then (none, ["period"], [])
      else if days = 1 then
        let s2f := sessionFilter s2
        if s2f.data = [] then (none, ["period"], []) else (some s2f, ["period"], [])
      else
        let s2f : CSeries :=
          ⟨s2.name, s2.data.filter (fun tp =>
            decide (dateWall start ≤ tp.1.wall) && decide (tp.1.wall < dateWall end_inclusive))⟩
        if s2f.data = [] then (none, ["period"], []) else (some s2f, ["period"], [])
  else (none, [], [])

/-- Strategy 1 with the parameters `fetch_history` derives from the window. -/
def fetchA0 (p : Provider) (start end_ : Int) : Option CSeries × List String × List String :=
  fastPathAttempt p (pick_interval (windowDays start end_)) (windowDays start end_)

/-- Strategy 2 with the derived parameters; `end + 1 day` widens the
upstream-exclusive end (app.py line 201). -/
def fetchA1 (p : Provider) (start end_ : Int) : Option CSeries × List String × List String :=
  directAttempt p start (end_ + 1) (pick_interval (windowDays start end_))

/-- Strategy 3 with the derived parameters. -/
def fetchA2 (p : Provider) (start end_ : Int) : Option CSeries × List String × List String :=
  historyAttempt p start (end_ + 1) (pick_interval (windowDays start end_))

/-- Strategy 4 with the derived parameters. -/
def fetchA3 (p : Provider) (start end_ : Int) : Option CSeries × List String × List String :=
  periodAttempt p start (end_ + 1) (pick_interval (windowDays start end_)) (windowDays start end_)

/-- Model of `fetch_history` (app.py lines 149-252): the four retrieval
strategies in source order, stopping at the first non-empty normalized
series; on total failure the empty series plus the final diagnostic line.
`calls` and `log` concatenate the per-strategy call markers and stderr
output of exactly the strategies that ran. -/
def fetch_history (p : Provider) (ticker : String) (start end_ : Int) : FetchResult :=
  let a0 := fetchA0 p start end_
  match a0.1 with
  | some s => ⟨s, a0.2.1, a0.2.2⟩
  | none =>
    let a1 := fetchA1 p start end_
    match a1.1 with
    | some s => ⟨s, a0.2.1 ++ a1.2.1, a0.2.2 ++ a1.2.2⟩
    | none =>
      let a2 := fetchA2 p start end_
      match a2.1 with
      | some s => ⟨s, a0.2.1 ++ a1.2.1 ++ a2.2.1, a0.2.2 ++ a1.2.2 ++ a2.2.2⟩
      | none =>
        let a3 := fetchA3 p start end_
        match a3.1 with
        | some s =>
          ⟨s, a0.2.1 ++ a1.2.1 ++ a2.2.1 ++ a3.2.1, a0.2.2 ++ a1.2.2 ++ a2.2.2 ++ a3.2.2⟩
        | none =>
          ⟨⟨none, []⟩, a0.2.1 ++ a1.2.1 ++ a2.2.1 ++ a3.2.1,
            a0.2.2 ++ a1.2.2 ++ a2.2.2 ++ a3.2.2
              ++ [noDataLine ticker start end_ (pick_interval (windowDays start end_))]⟩

/-- Display-format parameters derived by `make_figure` (app.py lines
254-333) from the series: tick/hover formats, range-slider visibility and
whether any timestamp has a time-of-day component. -/
structure ChartFormat where
  xTickFormat : String
  hoverFormat : String
  showRangeSlider : Bool
  hasIntradayTime : Bool
deriving DecidableEq

/-- Default used for first/last on the (never actually empty) date column. -/
def tsZero : Timestamp := ⟨0, none⟩

/-- Date column of `make_figure` after the daily-like re-normalization
(app.py lines 259-262): when every timestamp is already at midnight the
column is re-floored to the day, otherwise kept as is. -/
def figDates (s : CSeries) : List Timestamp :=
  let dates0 := s.data.map Prod.fst
  if dates0.all (fun t => floorDay t == t) then dates0.map floorDay else dates0

/-- Whole-day span of app.py line 264: `max(1, (last - first) // 86400)` in
seconds, using Python floor division. -/
def spanDaysOf (s : CSeries) : Int :=
  max 1 (Int.fdiv (((figDates s).getLastD tsZero).wall - ((figDates s).headD tsZero).wall) 86400)

/-- Format decisions of `make_figure` (app.py lines 259-272 and 319): daily
versus intraday detection, tick/hover formats, and the range slider shown
exactly when the span exceeds 60 days. -/
def make_figure_format (s : CSeries) : ChartFormat :=
  let has_intraday_time := (figDates s).any (fun t => floorDay t != t)
  let span_days := spanDaysOf s
  { xTickFormat :=
      if has_intraday_time then "%b %d, %H:%M"
      else if span_days ≤ 120 then "%b %d" else "%b %Y"
    hoverFormat := if has_intraday_time then "%b %d, %Y %H:%M" else "%b %d, %Y"
    showRangeSlider := decide (span_days > 60)
    hasIntradayTime := has_intraday_time }

/-- Module constant of app.py line 124. -/
def DEFAULT_TICKER : String := "AAPL"

/-- Ticker cleanup of app.py line 488:
`(ticker or "").strip().upper() or DEFAULT_TICKER`. -/
def effective_ticker (ticker : Option String) : String :=
  let t := pyUpper (pyStrip (ticker.getD ""))
  if t = "" then DEFAULT_TICKER else t

/-- What the claims observe of a returned figure: its title. -/
structure Descriptor where
  title : String
deriving DecidableEq

/-- Placeholder title of app.py lines 494-496. -/
def noDataTitle (t : String) (start end_ : Int) : String :=
  "No data for \x27" ++ t ++ "\x27 in " ++ toString start ++ "→" ++ toString end_
    ++ ". Try another range."

/-- Python `str(AttributeError)` raised by `None.upper()`. -/
def noneUpperText : String := "\x27NoneType\x27 object has no attribute \x27upper\x27"

/-- Model of the `update_chart` callback (app.py lines 486-502). The
try/except body is total here except for one genuine exception source:
`range_key.upper()` on line 499 raises `AttributeError` when the callback
hands over `None`, which the `except` turns into the generic error figure
and an `Error: {kind}: {text}` status. Every other statement of the body is
modelled by a total function, so no other exception can occur. -/
def update_chart (p : Provider) (today : Int) (ticker range_key : Option String) :
    Descriptor × String :=
  let t := effective_ticker ticker
  let e0 := get_last_trading_day today
  let w := compute_window_endpoints range_key e0
  let r := fetch_history p t w.1 w.2
  if r.series.data = [] then
    (⟨noDataTitle t w.1 w.2⟩, "No rows returned for " ++ t ++ ".")
  else
    match range_key with
    | none => (⟨"Error"⟩, "Error: AttributeError: " ++ noneUpperText)
    | some rk =>
      (⟨t ++ " Price Performance"⟩,
        "Showing " ++ t ++ " – " ++ pyUpper rk ++ " window ("
          ++ toString r.series.data.length ++ " rows)")

/-- Substring containment, for "the message names X" properties. -/
def strContains (hay needle : String) : Prop := needle.data <:+: hay.data

instance (hay needle : String) : Decidable (strContains hay needle) :=
  inferInstanceAs (Decidable (needle.data <:+: hay.data))

/-- Re-entry of a close series as a one-column DataFrame
(`Series.to_frame()`), for the normalization idempotence property; the
column carries the `Close` label a normalized series has. -/
def frameOfSeries (s : CSeries) : Frame :=
  ⟨s.data.map Prod.fst, .flat [("Close", s.data.map (fun tp => some tp.2))]⟩

/-- A series in the normalized form produced by `to_close_series`: labeled
`Close`, every timestamp tz-naive and already floored to the interval
granularity, and (by the type of `data`) no missing close value. -/
def NormalizedSeries (interval : String) (s : CSeries) : Prop :=
  s.name = some (.flat "Close") ∧ ∀ x ∈ s.data, x.1.tz = none ∧ floorTs interval x.1 = x.1

/-- Boolean check that consecutive timestamps strictly increase, the
PriceSeries ordering invariant of §3 of the design document. -/
def strictIncrTs : List (Timestamp × Price) → Bool
  | [] => true
  | [_] => true
  | a :: b :: rest => decide (a.1.wall < b.1.wall) && strictIncrTs (b :: rest)

/-- Provider whose every call raises, exercising the exception funnel. -/
def pErr : Provider :=
  ⟨fun _ _ => .error "boom", fun _ _ _ => .error "down", fun _ _ _ => .error "hist"⟩

/-- Provider whose every call returns `None`, exercising total failure. -/
def pEmpty : Provider :=
  ⟨fun _ _ => .ok none, fun _ _ _ => .ok none, fun _ _ _ => .ok none⟩

/-- Intraday frame with two bars inside one minute of one session: the
provider may legally return this, and normalization floors both bars to the
same minute. -/
def dupFrame : Frame :=
  ⟨[⟨10, none⟩, ⟨40, none⟩], .flat [("Close", [some 1, some 2])]⟩

/-- Provider returning `dupFrame` from every period download. -/
def pDup : Provider :=
  ⟨fun _ _ => .ok (some dupFrame), fun _ _ _ => .ok none, fun _ _ _ => .ok none⟩

/-- One-row intraday frame for instantiating universally quantified
fetcher theorems. -/
def oneRowFrame : Frame :=
  ⟨[⟨120, none⟩], .flat [("Close", [some 7])]⟩

/-- Provider returning `oneRowFrame` from every period download. -/
def pOneRow : Provider :=
  ⟨fun _ _ => .ok (some oneRowFrame), fun _ _ _ => .ok none, fun _ _ _ => .ok none⟩

/-- Ten-row flat frame, the valid 10-row response of the fallback-ordering
scenario in §8 of the design document. -/
def frame10 : Frame :=
  ⟨[⟨60, none⟩, ⟨120, none⟩, ⟨180, none⟩, ⟨240, none⟩, ⟨300, none⟩,
    ⟨360, none⟩, ⟨420, none⟩, ⟨480, none⟩, ⟨540, none⟩, ⟨600, none⟩],
   .flat [("Close", [some 1, some 2, some 3, some 4, some 5,
                     some 6, some 7, some 8, some 9, some 10])]⟩

/-- Provider where the fast path (a period download) finds an empty frame
and the direct range download returns the valid 10-row frame. -/
def pOrder : Provider :=
  ⟨fun _ _ => .ok (some ⟨[], .flat []⟩), fun _ _ _ => .ok (some frame10),
   fun _ _ _ => .error "unused"⟩

/-- Intraday frame spanning a Monday session (epoch day 4) and a Tuesday
session (epoch day 5), two bars each at 09:30 and 09:35. -/
def sessFrame : Frame :=
  ⟨[⟨379800, none⟩, ⟨380100, none⟩, ⟨466200, none⟩, ⟨466500, none⟩],
   .flat [("Close", [some 10, some 20, some 30, some 40])]⟩

/-- Provider returning `sessFrame` from every period download. -/
def pSess : Provider :=
  ⟨fun _ _ => .ok (some sessFrame), fun _ _ _ => .ok none, fun _ _ _ => .ok none⟩

/-- Daily two-point series spanning exactly 60 whole days. -/
def series60 : CSeries :=
  ⟨some (.flat "Close"), [(⟨0, none⟩, 1), (⟨86400 * 60, none⟩, 2)]⟩

/-- Daily two-point series spanning exactly 61 whole days. -/
def series61 : CSeries :=
  ⟨some (.flat "Close"), [(⟨0, none⟩, 1), (⟨86400 * 61, none⟩, 2)]⟩

/-- One-row series already in normalized (daily) form. -/
def sNorm : CSeries := ⟨some (.flat "Close"), [(⟨86400, none⟩, 5)]⟩

/-- C10: `get_last_trading_day` always lands on a weekday (Mon..Fri, i.e.
Python weekday in `[0, 5)`), never moves forward, moves back at most 2 days,
and is idempotent. -/
theorem get_last_trading_day_props (d : Int) :
    0 ≤ weekday (get_last_trading_day d) ∧ weekday (get_last_trading_day d) < 5
    ∧ d - 2 ≤ get_last_trading_day d ∧ get_last_trading_day d ≤ d
    ∧ get_last_trading_day (get_last_trading_day d) = get_last_trading_day d := by
  refine ⟨weekday_nonneg _, get_last_trading_day_weekday d,
    (get_last_trading_day_le d).1, (get_last_trading_day_le d).2,
    get_last_trading_day_idem d⟩

/-- C5: interval selection by window span, with the exact breakpoints of
`pick_interval` ("5m" = FiveMinute, "30m" = ThirtyMinute, "60m" = SixtyMinute,
"1d" = Daily). -/
theorem pick_interval_ranges (days : Int) (h : 1 ≤ days) :
    (days ≤ 2 → pick_interval days = "5m")
    ∧ (2 < days → days ≤ 10 → pick_interval days = "30m")
    ∧ (10 < days → days ≤ 60 → pick_interval days = "60m")
    ∧ (60 < days → pick_interval days = "1d") := by
  refine ⟨fun h2 => ?_, fun h2 h10 => ?_, fun h10 h60 => ?_, fun h60 => ?_⟩ <;>
    simp only [pick_interval] <;> split_ifs <;> first | rfl | omega

/-- Witness for C5 at the boundary inputs 2, 3, 10, 11, 60, 61. -/
theorem pick_interval_ranges_boundary :
    pick_interval 2 = "5m" ∧ pick_interval 3 = "30m" ∧ pick_interval 10 = "30m"
    ∧ pick_interval 11 = "60m" ∧ pick_interval 60 = "60m" ∧ pick_interval 61 = "1d" :=
  ⟨(pick_interval_ranges 2 (by decide)).1 (by decide),
   (pick_interval_ranges 3 (by decide)).2.1 (by decide) (by decide),
   (pick_interval_ranges 10 (by decide)).2.1 (by decide) (by decide),
   (pick_interval_ranges 11 (by decide)).2.2.1 (by decide) (by decide),
   (pick_interval_ranges 60 (by decide)).2.2.1 (by decide) (by decide),
   (pick_interval_ranges 61 (by decide)).2.2.2 (by decide)⟩

/-- C4: for every range keyword the planned window ends on the most recent
trading day of the reference date (Saturday rolls back 1 day, Sunday 2,
weekdays pass through), and for "1d" the start is one day before the end. -/
theorem plan_window_last_trading_day (range_key : Option String) (reference : Int) :
    (plan_window range_key reference).2 = get_last_trading_day reference
    ∧ (weekday reference = 5 → (plan_window range_key reference).2 = reference - 1)
    ∧ (weekday reference = 6 → (plan_window range_key reference).2 = reference - 2)
    ∧ (weekday reference < 5 → (plan_window range_key reference).2 = reference)
    ∧ (pyLower (range_key.getD "") = "1d" →
        (plan_window range_key reference).1 = (plan_window range_key reference).2 - 1) := by
  have hend : (plan_window range_key reference).2 = get_last_trading_day reference := by
    unfold plan_window compute_window_endpoints
    split_ifs with h1
    · exact get_last_trading_day_idem reference
    · rfl
  have hw0 := weekday_nonneg reference
  refine ⟨hend, fun h5 => ?_, fun h6 => ?_, fun hlt => ?_, fun h1d => ?_⟩
  · rw [hend]; unfold get_last_trading_day; simp [h5]
  · rw [hend]; unfold get_last_trading_day
    have : ¬ weekday reference = 5 := by omega
    simp [h6, this]
  · rw [hend]; unfold get_last_trading_day
    have h5 : ¬ weekday reference = 5 := by omega
    have h6 : ¬ weekday reference = 6 := by omega
    simp [h5, h6]
  · unfold plan_window compute_window_endpoints
    simp [h1d]

/-- Witness for C4 at a concrete Saturday: day 2 of the calendar (a
Saturday, weekday 5) plans the "1d" window `[Friday - 1, Friday]`. -/
theorem plan_window_last_trading_day_witness :
    (plan_window (some "1d") 2).2 = 1 ∧ (plan_window (some "1d") 2).1 = 0 := by
  have h := plan_window_last_trading_day (some "1d") 2
  have h5 : weekday (2 : Int) = 5 := by decide
  have hend := h.2.1 h5
  have hstart := h.2.2.2.2 (by decide)
  refine ⟨?_, ?_⟩
  · rw [hend]; decide
  · rw [hstart, hend]; decide

theorem stripTz_tz (t : Timestamp) : (stripTz t).tz = none := rfl

theorem stripTz_of_naive (t : Timestamp) (h : t.tz = none) : stripTz t = t := by
  cases t; simp_all [stripTz]

theorem floorTs_tz (interval : String) (t : Timestamp) : (floorTs interval t).tz = t.tz := by
  unfold floorTs floorDay floorMin
  split <;> rfl

theorem floorDay_idem (t : Timestamp) : floorDay (floorDay t) = floorDay t := by
  simp only [floorDay]
  congr 1
  omega

theorem floorMin_idem (t : Timestamp) : floorMin (floorMin t) = floorMin t := by
  simp only [floorMin]
  congr 1
  omega

theorem floorTs_idem (interval : String) (t : Timestamp) :
    floorTs interval (floorTs interval t) = floorTs interval t := by
  unfold floorTs
  split
  · exact floorDay_idem t
  · exact floorMin_idem t

theorem to_close_series_mem (interval : String) (df : Option Frame) :
    ∀ x ∈ (to_close_series interval df).data, x.1.tz = none ∧ floorTs interval x.1 = x.1 := by
  intro x hx
  unfold to_close_series at hx
  rcases df with _ | f
  · simp at hx
  · simp only at hx
    split_ifs at hx with hidx
    · simp at hx
    · rcases hsel : selectClose f with _ | ⟨key, vals⟩ <;> rw [hsel] at hx
      · simp at hx
      · simp only at hx
        split_ifs at hx with hs
        · simp at hx
        · simp only [List.mem_map] at hx
          obtain ⟨y, _, rfl⟩ := hx
          refine ⟨?_, ?_⟩
          · rw [floorTs_tz, stripTz_tz]
          · exact floorTs_idem interval (stripTz y.1)

theorem foldl_max_self_or_mem (w : Int) (ws : List Int) :
    ws.foldl max w = w ∨ ws.foldl max w ∈ ws := by
  induction ws generalizing w with
  | nil => simp
  | cons x xs ih =>
    rcases ih (max w x) with h | h
    · rcases max_choice w x with h2 | h2 <;> simp_all [List.foldl]
    · simp_all [List.foldl]

theorem le_foldl_max (w : Int) (ws : List Int) : ∀ x, (x = w ∨ x ∈ ws) → x ≤ ws.foldl max w := by
  induction ws generalizing w with
  | nil => simp_all
  | cons y ys ih =>
    intro x hx
    simp only [List.mem_cons] at hx
    simp only [List.foldl_cons]
    rcases hx with rfl | rfl | hx
    · exact le_trans (le_max_left x y) (ih (max x y) (max x y) (Or.inl rfl))
    · exact le_trans (le_max_right w x) (ih (max w x) (max w x) (Or.inl rfl))
    · exact ih (max w y) x (Or.inr hx)

theorem lastSessionWall_attained (s : CSeries) (h : s.data ≠ []) :
    ∃ x ∈ s.data, (floorDay x.1).wall = lastSessionWall s := by
  unfold lastSessionWall
  rcases hms : s.data.map (fun tp => (floorDay tp.1).wall) with _ | ⟨w, ws⟩
  · simp_all
  · rw [hms]
    have hmem : ws.foldl max w ∈ s.data.map (fun tp => (floorDay tp.1).wall) := by
      rw [hms]
      rcases foldl_max_self_or_mem w ws with h2 | h2
      · rw [h2]; exact List.mem_cons_self w ws
      · exact List.mem_cons_of_mem w h2
    obtain ⟨x, hx, hxe⟩ := List.mem_map.mp hmem
    exact ⟨x, hx, hxe⟩

theorem sessionFilter_ne_nil (s : CSeries) (h : s.data ≠ []) : (sessionFilter s).data ≠ [] := by
  obtain ⟨x, hx, hxe⟩ := lastSessionWall_attained s h
  have : x ∈ (sessionFilter s).data := by
    unfold sessionFilter
    exact List.mem_filter.mpr ⟨hx, by simp [hxe]⟩
  intro hnil
  rw [hnil] at this
  simp at this

theorem sessionFilter_subset (s : CSeries) : ∀ x ∈ (sessionFilter s).data, x ∈ s.data := by
  intro x hx
  exact (List.mem_filter.mp hx).1

theorem sessionFilter_session (s : CSeries) :
    ∀ x ∈ (sessionFilter s).data, (floorDay x.1).wall = lastSessionWall s := by
  intro x hx
  have := (List.mem_filter.mp hx).2
  simpa using this

theorem headD_map {α β : Type} (f : α → β) (l : List α) (d : α) :
    (l.map f).headD (f d) = f (l.headD d) := by
  cases l <;> rfl

theorem getLastD_map {α β : Type} (f : α → β) (l : List α) (d : α) :
    (l.map f).getLastD (f d) = f (l.getLastD d) := by
  induction l with
  | nil => rfl
  | cons x xs ih => cases xs <;> simp_all [List.getLastD]

theorem figDates_eq (s : CSeries) : figDates s = s.data.map Prod.fst := by
  simp only [figDates]
  split_ifs with hall
  · refine List.map_congr_left ?_ |>.trans (List.map_id _)
    intro t ht
    have := List.all_eq_true.mp hall t ht
    simpa using this
  · rfl

/-- C8: normalizing an already-normalized series again returns an identical
series: the data round-trips exactly for every normalized series (pandas
`Series.equals`), and a non-empty one round-trips with its `Close` label
as well. -/
theorem to_close_series_idempotent (interval : String) (s : CSeries)
    (h : NormalizedSeries interval s) :
    (to_close_series interval (some (frameOfSeries s))).data = s.data
    ∧ (s.data ≠ [] → to_close_series interval (some (frameOfSeries s)) = s) := by
  obtain ⟨hname, hmem⟩ := h
  by_cases hd : s.data = []
  · constructor
    · simp [to_close_series, frameOfSeries, hd]
    · intro hne; exact absurd hd hne
  · have hidx : (frameOfSeries s).index ≠ [] := by
      simp [frameOfSeries, hd]
    have hsel : selectClose (frameOfSeries s) =
        some (.flat "Close", s.data.map (fun tp => some tp.2)) := by
      simp [selectClose, frameOfSeries, List.find?]
    have hzip : ((frameOfSeries s).index.zip (s.data.map (fun tp => some tp.2))).filterMap
        (fun tv => tv.2.map (fun p => (tv.1, p))) = s.data := by
      show ((s.data.map Prod.fst).zip (s.data.map (fun tp => some tp.2))).filterMap
        (fun tv => tv.2.map (fun p => (tv.1, p))) = s.data
      rw [List.zip_map']
      rw [List.filterMap_map]
      have : ∀ tp : Timestamp × Price,
          ((fun tv : Timestamp × Option Price => tv.2.map (fun p => (tv.1, p))) ∘
            (fun a : Timestamp × Price => (a.1, some a.2))) tp = some tp := by
        intro tp; rfl
      rw [funext this, List.filterMap_some]
    have hflo : s.data.map (fun tp => (floorTs interval (stripTz tp.1), tp.2)) = s.data := by
      refine List.map_congr_left ?_ |>.trans (List.map_id _)
      intro x hxm
      obtain ⟨htz, hfl⟩ := hmem x hxm
      rw [stripTz_of_naive _ htz, hfl]
      rfl
    have : to_close_series interval (some (frameOfSeries s)) = s := by
      simp only [to_close_series]
      rw [if_neg hidx, hsel]
      simp only [hzip, if_neg hd, hflo]
      cases s with
      | mk n d => simp_all
    exact ⟨by rw [this], fun _ => this⟩

/-- Witness for C8 on a concrete normalized one-row daily series. -/
theorem to_close_series_idempotent_witness :
    to_close_series "1d" (some (frameOfSeries sNorm)) = sNorm :=
  (to_close_series_idempotent "1d" sNorm ⟨rfl, by decide⟩).2 (by decide)

/-- C9: for a non-empty series the chart adapter shows the range slider
exactly when the whole-day span between the first and last timestamp
(floored, minimum 1) exceeds 60 days. -/
theorem make_figure_rangeslider (s : CSeries) (h : s.data ≠ []) :
    ((make_figure_format s).showRangeSlider = true ↔
      60 < max 1 (Int.fdiv ((s.data.getLastD (tsZero, 0)).1.wall
        - (s.data.headD (tsZero, 0)).1.wall) 86400)) := by
  have hspan : spanDaysOf s = max 1 (Int.fdiv ((s.data.getLastD (tsZero, 0)).1.wall
      - (s.data.headD (tsZero, 0)).1.wall) 86400) := by
    unfold spanDaysOf
    rw [figDates_eq]
    have h1 : (s.data.map Prod.fst).getLastD tsZero = (s.data.getLastD (tsZero, 0)).1 :=
      getLastD_map Prod.fst s.data (tsZero, 0)
    have h2 : (s.data.map Prod.fst).headD tsZero = (s.data.headD (tsZero, 0)).1 :=
      headD_map Prod.fst s.data (tsZero, 0)
    rw [h1, h2]
  unfold make_figure_format
  simp only [hspan, decide_eq_true_eq]

/-- Witness for C9 at the 60- and 61-day boundary series. -/
theorem make_figure_rangeslider_witness :
    (make_figure_format series60).showRangeSlider = false
    ∧ (make_figure_format series61).showRangeSlider = true := by
  have h60 := make_figure_rangeslider series60 (by decide)
  have h61 := make_figure_rangeslider series61 (by decide)
  constructor
  · cases hb : (make_figure_format series60).showRangeSlider
    · rfl
    · exact absurd (h60.mp hb) (by decide)
  · exact h61.mpr (by decide)

theorem fastPathAttempt_some (p : Provider) (i : String) (d : Int) (s : CSeries)
    (h : (fastPathAttempt p i d).1 = some s) :
    s.data ≠ [] ∧ ∀ x ∈ s.data, x.1.tz = none ∧ floorTs i x.1 = x.1 := by
  unfold fastPathAttempt at h
  by_cases hc : i ≠ "1d" ∧ d = 1
  · rw [if_pos hc] at h
    cases hp : p.downloadPeriod "5d" i with
    | error e => rw [hp] at h; simp at h
    | ok d0 =>
      rw [hp] at h
      simp only at h
      by_cases h1 : (to_close_series i d0).data = []
      · rw [if_pos h1] at h; simp at h
      · rw [if_neg h1] at h
        by_cases h2 : (sessionFilter (to_close_series i d0)).data = []
        · rw [if_pos h2] at h; simp at h
        · rw [if_neg h2] at h
          obtain rfl := Option.some.inj h
          exact ⟨h2, fun x hx => to_close_series_mem i _ x (sessionFilter_subset _ x hx)⟩
  · rw [if_neg hc] at h; simp at h

theorem directAttempt_some (p : Provider) (a b : Int) (i : String) (s : CSeries)
    (h : (directAttempt p a b i).1 = some s) :
    s.data ≠ [] ∧ ∀ x ∈ s.data, x.1.tz = none ∧ floorTs i x.1 = x.1 := by
  unfold directAttempt at h
  cases hp : p.downloadRange a b i <;> rw [hp] at h
  · simp at h
  · simp only at h
    split_ifs at h with h1
    obtain rfl := Option.some.inj h
    exact ⟨h1, to_close_series_mem i _⟩

theorem historyAttempt_some (p : Provider) (a b : Int) (i : String) (s : CSeries)
    (h : (historyAttempt p a b i).1 = some s) :
    s.data ≠ [] ∧ ∀ x ∈ s.data, x.1.tz = none ∧ floorTs i x.1 = x.1 := by
  unfold historyAttempt at h
  cases hp : p.history a b i <;> rw [hp] at h
  · simp at h
  · simp only at h
    split_ifs at h with h1
    obtain rfl := Option.some.inj h
    exact ⟨h1, to_close_series_mem i _⟩

theorem periodAttempt_some (p : Provider) (a b : Int) (i : String) (d : Int) (s : CSeries)
    (h : (periodAttempt p a b i d).1 = some s) :
    s.data ≠ [] ∧ ∀ x ∈ s.data, x.1.tz = none ∧ floorTs i x.1 = x.1 := by
  unfold periodAttempt at h
  by_cases hc : i ≠ "1d"
  · rw [if_pos hc] at h
    cases hp : p.downloadPeriod (periodKeyword d) i with
    | error e => rw [hp] at h; simp at h
    | ok d2 =>
      rw [hp] at h
      simp only at h
      by_cases h1 : (to_close_series i d2).data = []
      · rw [if_pos h1] at h; simp at h
      · rw [if_neg h1] at h
        by_cases hd1 : d = 1
        · rw [if_pos hd1] at h
          by_cases h2 : (sessionFilter (to_close_series i d2)).data = []
          · rw [if_pos h2] at h; simp at h
          · rw [if_neg h2] at h
            obtain rfl := Option.some.inj h
            exact ⟨h2, fun x hx => to_close_series_mem i _ x (sessionFilter_subset _ x hx)⟩
        · rw [if_neg hd1] at h
          by_cases h3 : (to_close_series i d2).data.filter
              (fun tp => decide (dateWall a ≤ tp.1.wall) && decide (tp.1.wall < dateWall b)) = []
          · rw [if_pos h3] at h; simp at h
          · rw [if_neg h3] at h
            obtain rfl := Option.some.inj h
            exact ⟨h3, fun x hx => to_close_series_mem i _ x (List.mem_filter.mp hx).1⟩
  · rw [if_neg hc] at h; simp at h

theorem fastPathAttempt_calls (p : Provider) (i : String) (d : Int) :
    (fastPathAttempt p i d).2.1 = [] ∨ (fastPathAttempt p i d).2.1 = ["fastpath"] := by
  unfold fastPathAttempt
  split_ifs with hc
  · cases p.downloadPeriod "5d" i
    · simp
    · simp only
      split_ifs <;> simp
  · simp

theorem directAttempt_calls (p : Provider) (a b : Int) (i : String) :
    (directAttempt p a b i).2.1 = ["direct"] := by
  unfold directAttempt
  cases p.downloadRange a b i
  · simp
  · simp only
    split_ifs <;> simp

theorem historyAttempt_calls (p : Provider) (a b : Int) (i : String) :
    (historyAttempt p a b i).2.1 = ["history"] := by
  unfold historyAttempt
  cases p.history a b i
  · simp
  · simp only
    split_ifs <;> simp

theorem periodAttempt_calls (p : Provider) (a b : Int) (i : String) (d : Int) :
    (periodAttempt p a b i d).2.1 = [] ∨ (periodAttempt p a b i d).2.1 = ["period"] := by
  unfold periodAttempt
  by_cases hc : i ≠ "1d"
  · rw [if_pos hc]
    cases p.downloadPeriod (periodKeyword d) i with
    | error e => simp
    | ok d2 =>
      simp only
      split_ifs <;> simp
  · rw [if_neg hc]; simp

theorem fastPathAttempt_error (p : Provider) (i : String) (d : Int) (e : String)
    (hm : "fastpath" ∈ (fastPathAttempt p i d).2.1)
    (he : p.downloadPeriod "5d" i = .error e) :
    (fastPathAttempt p i d).1 = none ∧ fastErrLine e ∈ (fastPathAttempt p i d).2.2 := by
  unfold fastPathAttempt at *
  split_ifs at * with hc
  · rw [he]
    simp
  · simp at hm

theorem directAttempt_error (p : Provider) (a b : Int) (i : String) (e : String)
    (he : p.downloadRange a b i = .error e) :
    (directAttempt p a b i).1 = none ∧ directErrLine e ∈ (directAttempt p a b i).2.2 := by
  unfold directAttempt
  rw [he]
  simp

theorem historyAttempt_error (p : Provider) (a b : Int) (i : String) (e : String)
    (he : p.history a b i = .error e) :
    (historyAttempt p a b i).1 = none ∧ historyErrLine e ∈ (historyAttempt p a b i).2.2 := by
  unfold historyAttempt
  rw [he]
  simp

theorem periodAttempt_error (p : Provider) (a b : Int) (i : String) (d : Int) (e : String)
    (hm : "period" ∈ (periodAttempt p a b i d).2.1)
    (he : p.downloadPeriod (periodKeyword d) i = .error e) :
    (periodAttempt p a b i d).1 = none ∧ periodErrLine e ∈ (periodAttempt p a b i d).2.2 := by
  unfold periodAttempt at *
  by_cases hc : i ≠ "1d"
  · rw [if_pos hc]
    rw [he]
    simp
  · rw [if_neg hc] at hm
    simp at hm

theorem fetch_history_split (p : Provider) (tk : String) (start end_ : Int) :
    (∃ s, (fetchA0 p start end_).1 = some s ∧ fetch_history p tk start end_ =
      ⟨s, (fetchA0 p start end_).2.1, (fetchA0 p start end_).2.2⟩)
    ∨ ((fetchA0 p start end_).1 = none ∧ ∃ s, (fetchA1 p start end_).1 = some s ∧
      fetch_history p tk start end_ = ⟨s,
        (fetchA0 p start end_).2.1 ++ (fetchA1 p start end_).2.1,
        (fetchA0 p start end_).2.2 ++ (fetchA1 p start end_).2.2⟩)
    ∨ ((fetchA0 p start end_).1 = none ∧ (fetchA1 p start end_).1 = none ∧
      ∃ s, (fetchA2 p start end_).1 = some s ∧
      fetch_history p tk start end_ = ⟨s,
        (fetchA0 p start end_).2.1 ++ (fetchA1 p start end_).2.1 ++ (fetchA2 p start end_).2.1,
        (fetchA0 p start end_).2.2 ++ (fetchA1 p start end_).2.2 ++ (fetchA2 p start end_).2.2⟩)
    ∨ ((fetchA0 p start end_).1 = none ∧ (fetchA1 p start end_).1 = none ∧
      (fetchA2 p start end_).1 = none ∧ ∃ s, (fetchA3 p start end_).1 = some s ∧
      fetch_history p tk start end_ = ⟨s,
        (fetchA0 p start end_).2.1 ++ (fetchA1 p start end_).2.1
          ++ (fetchA2 p start end_).2.1 ++ (fetchA3 p start end_).2.1,
        (fetchA0 p start end_).2.2 ++ (fetchA1 p start end_).2.2
          ++ (fetchA2 p start end_).2.2 ++ (fetchA3 p start end_).2.2⟩)
    ∨ ((fetchA0 p start end_).1 = none ∧ (fetchA1 p start end_).1 = none ∧
      (fetchA2 p start end_).1 = none ∧ (fetchA3 p start end_).1 = none ∧
      fetch_history p tk start end_ = ⟨⟨none, []⟩,
        (fetchA0 p start end_).2.1 ++ (fetchA1 p start end_).2.1
          ++ (fetchA2 p start end_).2.1 ++ (fetchA3 p start end_).2.1,
        (fetchA0 p start end_).2.2 ++ (fetchA1 p start end_).2.2
          ++ (fetchA2 p start end_).2.2 ++ (fetchA3 p start end_).2.2
          ++ [noDataLine tk start end_ (pick_interval (windowDays start end_))]⟩) := by
  simp only [fetch_history]
  rcases h0 : (fetchA0 p start end_).1 with _ | s0
  · rcases h1 : (fetchA1 p start end_).1 with _ | s1
    · rcases h2 : (fetchA2 p start end_).1 with _ | s2
      · rcases h3 : (fetchA3 p start end_).1 with _ | s3
        · exact Or.inr (Or.inr (Or.inr (Or.inr ⟨rfl, rfl, rfl, rfl, rfl⟩)))
        · exact Or.inr (Or.inr (Or.inr (Or.inl ⟨rfl, rfl, rfl, s3, rfl, rfl⟩)))
      · exact Or.inr (Or.inr (Or.inl ⟨rfl, rfl, s2, rfl, rfl⟩))
    · exact Or.inr (Or.inl ⟨rfl, s1, rfl, rfl⟩)
  · exact Or.inl ⟨s0, rfl, rfl⟩

/-- C1 (amended): every row of a series returned by `fetch_history` has a
timezone-naive timestamp floored to the interval granularity (and, by the
construction of `CSeries`, a present close value); strict ordering and
uniqueness of timestamps are not enforced by the code, which never sorts or
deduplicates. -/
theorem fetch_history_series_normalized (p : Provider) (tk : String) (start end_ : Int) :
    ∀ x ∈ (fetch_history p tk start end_).series.data,
      x.1.tz = none ∧ floorTs (pick_interval (windowDays start end_)) x.1 = x.1 := by
  intro x hx
  rcases fetch_history_split p tk start end_ with
    ⟨s, hs, he⟩ | ⟨h0, s, hs, he⟩ | ⟨h0, h1, s, hs, he⟩ | ⟨h0, h1, h2, s, hs, he⟩ |
    ⟨h0, h1, h2, h3, he⟩
  · rw [he] at hx
    unfold fetchA0 at hs
    exact (fastPathAttempt_some _ _ _ s hs).2 x hx
  · rw [he] at hx
    unfold fetchA1 at hs
    exact (directAttempt_some _ _ _ _ s hs).2 x hx
  · rw [he] at hx
    unfold fetchA2 at hs
    exact (historyAttempt_some _ _ _ _ s hs).2 x hx
  · rw [he] at hx
    unfold fetchA3 at hs
    exact (periodAttempt_some _ _ _ _ _ s hs).2 x hx
  · rw [he] at hx
    simp at hx

/-- Witness for the amended C1 on a concrete one-row fetch. -/
theorem fetch_history_series_normalized_witness :
    ((⟨120, none⟩, 7) : Timestamp × Price).1.tz = none
    ∧ floorTs (pick_interval (windowDays 0 1)) ((⟨120, none⟩, 7) : Timestamp × Price).1
      = ((⟨120, none⟩, 7) : Timestamp × Price).1 :=
  fetch_history_series_normalized pOneRow "T" 0 1 (⟨120, none⟩, 7) (by decide)

/-- C1 counterexample: with a provider response holding two bars inside one
minute, the fetcher returns a non-empty series whose timestamps are not
strictly increasing (the floored timestamps collide). -/
theorem fetch_history_not_strictly_increasing :
    (fetch_history pDup "X" 0 1).series.data ≠ []
    ∧ strictIncrTs (fetch_history pDup "X" 0 1).series.data = false :=
  ⟨by decide, by decide⟩

/-- C3: the retrieval strategies run in the fixed source order (fast path,
direct window, history retry, period fallback): the first strategy
producing a series determines the result, and the later strategies never
reach their provider calls. -/
theorem fetch_history_strategy_order (p : Provider) (tk : String) (start end_ : Int) :
    (∀ s, (fetchA0 p start end_).1 = some s →
      (fetch_history p tk start end_).series = s
      ∧ "direct" ∉ (fetch_history p tk start end_).calls
      ∧ "history" ∉ (fetch_history p tk start end_).calls
      ∧ "period" ∉ (fetch_history p tk start end_).calls)
    ∧ ((fetchA0 p start end_).1 = none → ∀ s, (fetchA1 p start end_).1 = some s →
      (fetch_history p tk start end_).series = s
      ∧ "history" ∉ (fetch_history p tk start end_).calls
      ∧ "period" ∉ (fetch_history p tk start end_).calls)
    ∧ ((fetchA0 p start end_).1 = none → (fetchA1 p start end_).1 = none →
      ∀ s, (fetchA2 p start end_).1 = some s →
      (fetch_history p tk start end_).series = s
      ∧ "period" ∉ (fetch_history p tk start end_).calls)
    ∧ ((fetchA0 p start end_).1 = none → (fetchA1 p start end_).1 = none →
      (fetchA2 p start end_).1 = none → ∀ s, (fetchA3 p start end_).1 = some s →
      (fetch_history p tk start end_).series = s) := by
  have hc0 : (fetchA0 p start end_).2.1 = [] ∨ (fetchA0 p start end_).2.1 = ["fastpath"] :=
    fastPathAttempt_calls p _ _
  have hc1 : (fetchA1 p start end_).2.1 = ["direct"] := directAttempt_calls p _ _ _
  have hc2 : (fetchA2 p start end_).2.1 = ["history"] := historyAttempt_calls p _ _ _
  have hc3 : (fetchA3 p start end_).2.1 = [] ∨ (fetchA3 p start end_).2.1 = ["period"] :=
    periodAttempt_calls p _ _ _ _
  refine ⟨?_, ?_, ?_, ?_⟩
  · intro s hs
    rcases fetch_history_split p tk start end_ with
      ⟨s', hs', he⟩ | ⟨h0, _⟩ | ⟨h0, _⟩ | ⟨h0, _⟩ | ⟨h0, _⟩
    · rw [hs] at hs'
      obtain rfl := Option.some.inj hs'
      rw [he]
      refine ⟨rfl, ?_, ?_, ?_⟩ <;> rcases hc0 with he0 | he0 <;> simp [he0]
    all_goals rw [h0] at hs; exact Option.noConfusion hs
  · intro h0 s hs
    rcases fetch_history_split p tk start end_ with
      ⟨s', hs', he⟩ | ⟨h0', s', hs', he⟩ | ⟨h0', h1', _⟩ | ⟨h0', h1', _⟩ | ⟨h0', h1', _⟩
    · rw [h0] at hs'; exact Option.noConfusion hs'
    · rw [hs] at hs'
      obtain rfl := Option.some.inj hs'
      rw [he]
      refine ⟨rfl, ?_, ?_⟩ <;> rcases hc0 with he0 | he0 <;> simp [he0, hc1]
    all_goals rw [h1'] at hs; exact Option.noConfusion hs
  · intro h0 h1 s hs
    rcases fetch_history_split p tk start end_ with
      ⟨s', hs', he⟩ | ⟨h0', s', hs', he⟩ | ⟨h0', h1', s', hs', he⟩ | ⟨h0', h1', h2', _⟩ |
      ⟨h0', h1', h2', _⟩
    · rw [h0] at hs'; exact Option.noConfusion hs'
    · rw [h1] at hs'; exact Option.noConfusion hs'
    · rw [hs] at hs'
      obtain rfl := Option.some.inj hs'
      rw [he]
      refine ⟨rfl, ?_⟩
      rcases hc0 with he0 | he0 <;> simp [he0, hc1, hc2]
    all_goals rw [h2'] at hs; exact Option.noConfusion hs
  · intro h0 h1 h2 s hs
    rcases fetch_history_split p tk start end_ with
      ⟨s', hs', he⟩ | ⟨h0', s', hs', he⟩ | ⟨h0', h1', s', hs', he⟩ |
      ⟨h0', h1', h2', s', hs', he⟩ | ⟨h0', h1', h2', h3', he⟩
    · rw [h0] at hs'; exact Option.noConfusion hs'
    · rw [h1] at hs'; exact Option.noConfusion hs'
    · rw [h2] at hs'; exact Option.noConfusion hs'
    · rw [hs] at hs'
      obtain rfl := Option.some.inj hs'
      rw [he]
    · rw [h3'] at hs; exact Option.noConfusion hs

/-- Witness for C3: the fast path finds an empty frame, the direct download
returns the valid 10-row frame; the fetch returns exactly those 10 rows and
the history and period strategies never run. -/
theorem fetch_history_strategy_order_witness :
    (fetch_history pOrder "T" 0 1).series.data.length = 10
    ∧ "history" ∉ (fetch_history pOrder "T" 0 1).calls
    ∧ "period" ∉ (fetch_history pOrder "T" 0 1).calls := by
  have h := (fetch_history_strategy_order pOrder "T" 0 1).2.1 (by decide)
    (to_close_series (pick_interval (windowDays 0 1)) (some frame10)) (by decide)
  refine ⟨?_, h.2.1, h.2.2⟩
  rw [h.1]
  decide

/-- C6: for a one-day intraday window the fast path returns exactly the
restriction of the trailing-period data to its most recent session: every
returned row lies on the latest calendar day that has bars. -/
theorem fetch_history_fast_path_session (p : Provider) (tk : String) (start end_ : Int)
    (df : Option Frame)
    (hdays : windowDays start end_ = 1)
    (hp : p.downloadPeriod "5d" (pick_interval 1) = .ok df)
    (hne : (to_close_series (pick_interval 1) df).data ≠ []) :
    (fetch_history p tk start end_).series
      = sessionFilter (to_close_series (pick_interval 1) df)
    ∧ ∀ x ∈ (fetch_history p tk start end_).series.data,
        (floorDay x.1).wall = lastSessionWall (to_close_series (pick_interval 1) df) := by
  have hsf : (sessionFilter (to_close_series (pick_interval 1) df)).data ≠ [] :=
    sessionFilter_ne_nil _ hne
  have ha0 : (fetchA0 p start end_).1
      = some (sessionFilter (to_close_series (pick_interval 1) df)) := by
    unfold fetchA0 fastPathAttempt
    rw [hdays]
    rw [if_pos (⟨by decide, rfl⟩ : pick_interval 1 ≠ "1d" ∧ (1 : Int) = 1)]
    rw [hp]
    simp only
    rw [if_neg hne, if_neg hsf]
  rcases fetch_history_split p tk start end_ with
    ⟨s', hs', he⟩ | ⟨h0, _⟩ | ⟨h0, _⟩ | ⟨h0, _⟩ | ⟨h0, _⟩
  · rw [ha0] at hs'
    obtain rfl := Option.some.inj hs'
    rw [he]
    exact ⟨rfl, fun x hx => sessionFilter_session _ x hx⟩
  all_goals rw [ha0] at h0; exact Option.noConfusion h0

/-- Witness for C6: with bars on a Monday and a Tuesday and the window
[Tuesday, Tuesday], the fetch returns only the Tuesday bars. -/
theorem fetch_history_fast_path_session_witness :
    (fetch_history pSess "T" 5 5).series
      = sessionFilter (to_close_series (pick_interval 1) (some sessFrame))
    ∧ (sessionFilter (to_close_series (pick_interval 1) (some sessFrame))).data
      = [(⟨466200, none⟩, 30), (⟨466500, none⟩, 40)] :=
  ⟨(fetch_history_fast_path_session pSess "T" 5 5 (some sessFrame)
      (by decide) rfl (by decide)).1, by decide⟩

theorem noDataLine_names (tk : String) (s e : Int) (i : String) :
    strContains (noDataLine tk s e i) tk ∧ strContains (noDataLine tk s e i) (toString s)
    ∧ strContains (noDataLine tk s e i) (toString e) ∧ strContains (noDataLine tk s e i) i := by
  unfold noDataLine strContains
  refine ⟨⟨"[fetch_history] no data for ".data,
      (" " ++ toString s ++ "→" ++ toString e ++ " (interval " ++ i ++ ")").data, ?_⟩,
    ⟨("[fetch_history] no data for " ++ tk ++ " ").data,
      ("→" ++ toString e ++ " (interval " ++ i ++ ")").data, ?_⟩,
    ⟨("[fetch_history] no data for " ++ tk ++ " " ++ toString s ++ "→").data,
      (" (interval " ++ i ++ ")").data, ?_⟩,
    ⟨("[fetch_history] no data for " ++ tk ++ " " ++ toString s ++ "→" ++ toString e
        ++ " (interval ").data, ")".data, ?_⟩⟩ <;>
    simp [String.data_append]

theorem fetch_history_empty_logs (p : Provider) (tk : String) (start end_ : Int)
    (hemp : (fetch_history p tk start end_).series.data = []) :
    noDataLine tk start end_ (pick_interval (windowDays start end_))
      ∈ (fetch_history p tk start end_).log := by
  rcases fetch_history_split p tk start end_ with
    ⟨s, hs, he⟩ | ⟨h0, s, hs, he⟩ | ⟨h0, h1, s, hs, he⟩ | ⟨h0, h1, h2, s, hs, he⟩ |
    ⟨h0, h1, h2, h3, he⟩
  · rw [he] at hemp
    unfold fetchA0 at hs
    exact absurd hemp (fastPathAttempt_some _ _ _ s hs).1
  · rw [he] at hemp
    unfold fetchA1 at hs
    exact absurd hemp (directAttempt_some _ _ _ _ s hs).1
  · rw [he] at hemp
    unfold fetchA2 at hs
    exact absurd hemp (historyAttempt_some _ _ _ _ s hs).1
  · rw [he] at hemp
    unfold fetchA3 at hs
    exact absurd hemp (periodAttempt_some _ _ _ _ _ s hs).1
  · rw [he]
    simp

theorem fetch_history_fast_error_logged (p : Provider) (tk : String) (start end_ : Int)
    (e : String) (hm : "fastpath" ∈ (fetch_history p tk start end_).calls)
    (he2 : p.downloadPeriod "5d" (pick_interval (windowDays start end_)) = .error e) :
    fastErrLine e ∈ (fetch_history p tk start end_).log := by
  have hc1 : (fetchA1 p start end_).2.1 = ["direct"] := directAttempt_calls p _ _ _
  have hc2 : (fetchA2 p start end_).2.1 = ["history"] := historyAttempt_calls p _ _ _
  have hc3 : (fetchA3 p start end_).2.1 = [] ∨ (fetchA3 p start end_).2.1 = ["period"] :=
    periodAttempt_calls p _ _ _ _
  have key : "fastpath" ∈ (fetchA0 p start end_).2.1 →
      (fetchA0 p start end_).1 = none ∧ fastErrLine e ∈ (fetchA0 p start end_).2.2 := by
    intro hmm
    unfold fetchA0 at hmm ⊢
    exact fastPathAttempt_error p _ _ e hmm he2
  rcases fetch_history_split p tk start end_ with
    ⟨s, hs, he⟩ | ⟨h0, s, hs, he⟩ | ⟨h0, h1, s, hs, he⟩ | ⟨h0, h1, h2, s, hs, he⟩ |
    ⟨h0, h1, h2, h3, he⟩
  · rw [he] at hm
    rw [(key hm).1] at hs
    exact Option.noConfusion hs
  · rw [he] at hm ⊢
    rcases List.mem_append.mp hm with hm | hm
    · exact List.mem_append_left _ ((key hm).2)
    · rw [hc1] at hm; exact absurd hm (by decide)
  · rw [he] at hm ⊢
    rcases List.mem_append.mp hm with hm | hm
    · rcases List.mem_append.mp hm with hm | hm
      · exact List.mem_append_left _ (List.mem_append_left _ ((key hm).2))
      · rw [hc1] at hm; exact absurd hm (by decide)
    · rw [hc2] at hm; exact absurd hm (by decide)
  · rw [he] at hm ⊢
    rcases List.mem_append.mp hm with hm | hm
    · rcases List.mem_append.mp hm with hm | hm
      · rcases List.mem_append.mp hm with hm | hm
        · exact List.mem_append_left _ (List.mem_append_left _ (List.mem_append_left _
            ((key hm).2)))
        · rw [hc1] at hm; exact absurd hm (by decide)
      · rw [hc2] at hm; exact absurd hm (by decide)
    · rcases hc3 with hc3 | hc3 <;> rw [hc3] at hm <;> exact absurd hm (by decide)
  · rw [he] at hm ⊢
    rcases List.mem_append.mp hm with hm | hm
    · rcases List.mem_append.mp hm with hm | hm
      · rcases List.mem_append.mp hm with hm | hm
        · exact List.mem_append_left _ (List.mem_append_left _ (List.mem_append_left _
            (List.mem_append_left _ ((key hm).2))))
        · rw [hc1] at hm; exact absurd hm (by decide)
      · rw [hc2] at hm; exact absurd hm (by decide)
    · rcases hc3 with hc3 | hc3 <;> rw [hc3] at hm <;> exact absurd hm (by decide)

theorem fetch_history_direct_error_logged (p : Provider) (tk : String) (start end_ : Int)
    (e : String) (hm : "direct" ∈ (fetch_history p tk start end_).calls)
    (he2 : p.downloadRange start (end_ + 1) (pick_interval (windowDays start end_)) = .error e) :
    directErrLine e ∈ (fetch_history p tk start end_).log := by
  have herr : (fetchA1 p start end_).1 = none
      ∧ directErrLine e ∈ (fetchA1 p start end_).2.2 :=
    directAttempt_error p _ _ _ e he2
  have hc0 : (fetchA0 p start end_).2.1 = [] ∨ (fetchA0 p start end_).2.1 = ["fastpath"] :=
    fastPathAttempt_calls p _ _
  rcases fetch_history_split p tk start end_ with
    ⟨s, hs, he⟩ | ⟨h0, s, hs, he⟩ | ⟨h0, h1, s, hs, he⟩ | ⟨h0, h1, h2, s, hs, he⟩ |
    ⟨h0, h1, h2, h3, he⟩
  · rw [he] at hm
    have hm2 : "direct" ∈ (fetchA0 p start end_).2.1 := hm
    rcases hc0 with hc0 | hc0 <;> rw [hc0] at hm2 <;> exact absurd hm2 (by decide)
  · rw [hs] at herr
    exact Option.noConfusion herr.1
  · rw [he]
    exact List.mem_append_left _ (List.mem_append_right _ herr.2)
  · rw [he]
    exact List.mem_append_left _ (List.mem_append_left _ (List.mem_append_right _ herr.2))
  · rw [he]
    exact List.mem_append_left _ (List.mem_append_left _ (List.mem_append_left _
      (List.mem_append_right _ herr.2)))

theorem fetch_history_history_error_logged (p : Provider) (tk : String) (start end_ : Int)
    (e : String) (hm : "history" ∈ (fetch_history p tk start end_).calls)
    (he2 : p.history start (end_ + 1) (pick_interval (windowDays start end_)) = .error e) :
    historyErrLine e ∈ (fetch_history p tk start end_).log := by
  have herr : (fetchA2 p start end_).1 = none
      ∧ historyErrLine e ∈ (fetchA2 p start end_).2.2 :=
    historyAttempt_error p _ _ _ e he2
  have hc0 : (fetchA0 p start end_).2.1 = [] ∨ (fetchA0 p start end_).2.1 = ["fastpath"] :=
    fastPathAttempt_calls p _ _
  have hc1 : (fetchA1 p start end_).2.1 = ["direct"] := directAttempt_calls p _ _ _
  rcases fetch_history_split p tk start end_ with
    ⟨s, hs, he⟩ | ⟨h0, s, hs, he⟩ | ⟨h0, h1, s, hs, he⟩ | ⟨h0, h1, h2, s, hs, he⟩ |
    ⟨h0, h1, h2, h3, he⟩
  · rw [he] at hm
    have hm2 : "history" ∈ (fetchA0 p start end_).2.1 := hm
    rcases hc0 with hc0 | hc0 <;> rw [hc0] at hm2 <;> exact absurd hm2 (by decide)
  · rw [he] at hm
    rcases List.mem_append.mp hm with hm | hm
    · rcases hc0 with hc0 | hc0 <;> rw [hc0] at hm <;> exact absurd hm (by decide)
    · rw [hc1] at hm; exact absurd hm (by decide)
  · rw [hs] at herr
    exact Option.noConfusion herr.1
  · rw [he]
    exact List.mem_append_left _ (List.mem_append_right _ herr.2)
  · rw [he]
    exact List.mem_append_left _ (List.mem_append_left _ (List.mem_append_right _ herr.2))

theorem fetch_history_period_error_logged (p : Provider) (tk : String) (start end_ : Int)
    (e : String) (hm : "period" ∈ (fetch_history p tk start end_).calls)
    (he2 : p.downloadPeriod (periodKeyword (windowDays start end_))
      (pick_interval (windowDays start end_)) = .error e) :
    periodErrLine e ∈ (fetch_history p tk start end_).log := by
  have hc0 : (fetchA0 p start end_).2.1 = [] ∨ (fetchA0 p start end_).2.1 = ["fastpath"] :=
    fastPathAttempt_calls p _ _
  have hc1 : (fetchA1 p start end_).2.1 = ["direct"] := directAttempt_calls p _ _ _
  have hc2 : (fetchA2 p start end_).2.1 = ["history"] := historyAttempt_calls p _ _ _
  rcases fetch_history_split p tk start end_ with
    ⟨s, hs, he⟩ | ⟨h0, s, hs, he⟩ | ⟨h0, h1, s, hs, he⟩ | ⟨h0, h1, h2, s, hs, he⟩ |
    ⟨h0, h1, h2, h3, he⟩
  · rw [he] at hm
    have hm2 : "period" ∈ (fetchA0 p start end_).2.1 := hm
    rcases hc0 with hc0 | hc0 <;> rw [hc0] at hm2 <;> exact absurd hm2 (by decide)
  · rw [he] at hm
    rcases List.mem_append.mp hm with hm | hm
    · rcases hc0 with hc0 | hc0 <;> rw [hc0] at hm <;> exact absurd hm (by decide)
    · rw [hc1] at hm; exact absurd hm (by decide)
  · rw [he] at hm
    rcases List.mem_append.mp hm with hm | hm
    · rcases List.mem_append.mp hm with hm | hm
      · rcases hc0 with hc0 | hc0 <;> rw [hc0] at hm <;> exact absurd hm (by decide)
      · rw [hc1] at hm; exact absurd hm (by decide)
    · rw [hc2] at hm; exact absurd hm (by decide)
  · rw [he] at hm
    have hmm : "period" ∈ (fetchA3 p start end_).2.1 := by
      rcases List.mem_append.mp hm with hm | hm
      · rcases List.mem_append.mp hm with hm | hm
        · rcases List.mem_append.mp hm with hm | hm
          · rcases hc0 with hc0 | hc0 <;> rw [hc0] at hm <;> exact absurd hm (by decide)
          · rw [hc1] at hm; exact absurd hm (by decide)
        · rw [hc2] at hm; exact absurd hm (by decide)
      · exact hm
    unfold fetchA3 at hmm
    have herr := periodAttempt_error p _ _ _ _ e hmm he2
    unfold fetchA3 at hs
    rw [herr.1] at hs
    exact Option.noConfusion hs
  · rw [he] at hm ⊢
    have hmm : "period" ∈ (fetchA3 p start end_).2.1 := by
      rcases List.mem_append.mp hm with hm | hm
      · rcases List.mem_append.mp hm with hm | hm
        · rcases List.mem_append.mp hm with hm | hm
          · rcases hc0 with hc0 | hc0 <;> rw [hc0] at hm <;> exact absurd hm (by decide)
          · rw [hc1] at hm; exact absurd hm (by decide)
        · rw [hc2] at hm; exact absurd hm (by decide)
      · exact hm
    unfold fetchA3 at hmm
    have herr := periodAttempt_error p _ _ _ _ e hmm he2
    refine List.mem_append_left _ (List.mem_append_right _ ?_)
    unfold fetchA3
    exact herr.2

/-- C2: `fetch_history` never propagates a provider exception: every raised
call of a strategy that ran is caught and its message logged, and when the
result is empty the log carries the final diagnostic line, which names the
ticker, the window and the interval. -/
theorem fetch_history_total_failure (p : Provider) (tk : String) (start end_ : Int)
    (h : start ≤ end_) :
    ((fetch_history p tk start end_).series.data = [] →
      noDataLine tk start end_ (pick_interval (windowDays start end_))
        ∈ (fetch_history p tk start end_).log)
    ∧ strContains (noDataLine tk start end_ (pick_interval (windowDays start end_))) tk
    ∧ strContains (noDataLine tk start end_ (pick_interval (windowDays start end_)))
        (toString start)
    ∧ strContains (noDataLine tk start end_ (pick_interval (windowDays start end_)))
        (toString end_)
    ∧ strContains (noDataLine tk start end_ (pick_interval (windowDays start end_)))
        (pick_interval (windowDays start end_))
    ∧ (∀ e, "fastpath" ∈ (fetch_history p tk start end_).calls →
        p.downloadPeriod "5d" (pick_interval (windowDays start end_)) = .error e →
        fastErrLine e ∈ (fetch_history p tk start end_).log)
    ∧ (∀ e, "direct" ∈ (fetch_history p tk start end_).calls →
        p.downloadRange start (end_ + 1) (pick_interval (windowDays start end_)) = .error e →
        directErrLine e ∈ (fetch_history p tk start end_).log)
    ∧ (∀ e, "history" ∈ (fetch_history p tk start end_).calls →
        p.history start (end_ + 1) (pick_interval (windowDays start end_)) = .error e →
        historyErrLine e ∈ (fetch_history p tk start end_).log)
    ∧ (∀ e, "period" ∈ (fetch_history p tk start end_).calls →
        p.downloadPeriod (periodKeyword (windowDays start end_))
          (pick_interval (windowDays start end_)) = .error e →
        periodErrLine e ∈ (fetch_history p tk start end_).log) :=
  ⟨fetch_history_empty_logs p tk start end_,
   (noDataLine_names tk start end_ _).1,
   (noDataLine_names tk start end_ _).2.1,
   (noDataLine_names tk start end_ _).2.2.1,
   (noDataLine_names tk start end_ _).2.2.2,
   fun e hm he2 => fetch_history_fast_error_logged p tk start end_ e hm he2,
   fun e hm he2 => fetch_history_direct_error_logged p tk start end_ e hm he2,
   fun e hm he2 => fetch_history_history_error_logged p tk start end_ e hm he2,
   fun e hm he2 => fetch_history_period_error_logged p tk start end_ e hm he2⟩

/-- Witness for C2: with a provider whose every call raises, the fetch
returns the log carrying the fast-path error line and the final no-data
diagnostic. -/
theorem fetch_history_total_failure_witness :
    noDataLine "AAPL" 0 1 (pick_interval (windowDays 0 1)) ∈ (fetch_history pErr "AAPL" 0 1).log
    ∧ fastErrLine "boom" ∈ (fetch_history pErr "AAPL" 0 1).log := by
  have h := fetch_history_total_failure pErr "AAPL" 0 1 (by decide)
  exact ⟨h.1 (by decide), h.2.2.2.2.2.1 "boom" (by decide) rfl⟩

theorem noDataTitle_names (t : String) (s e : Int) :
    strContains (noDataTitle t s e) "No data" ∧ strContains (noDataTitle t s e) t
    ∧ strContains (noDataTitle t s e) (toString s)
    ∧ strContains (noDataTitle t s e) (toString e) := by
  unfold noDataTitle strContains
  refine ⟨⟨[], (" for \x27" ++ t ++ "\x27 in " ++ toString s ++ "→" ++ toString e
        ++ ". Try another range.").data, ?_⟩,
    ⟨"No data for \x27".data,
      ("\x27 in " ++ toString s ++ "→" ++ toString e ++ ". Try another range.").data, ?_⟩,
    ⟨("No data for \x27" ++ t ++ "\x27 in ").data,
      ("→" ++ toString e ++ ". Try another range.").data, ?_⟩,
    ⟨("No data for \x27" ++ t ++ "\x27 in " ++ toString s ++ "→").data,
      ". Try another range.".data, ?_⟩⟩ <;>
    simp [String.data_append]

/-- C7 (amended): `update_chart` never propagates an exception and always
returns a figure descriptor plus a status string. The ticker used is the
trimmed, upper-cased input, defaulting to the configured ticker when blank;
on an empty fetch the descriptor title says "No data" and names the ticker
and the window, while the status message names the ticker only; on the one
internal exception the body can raise (`range_key.upper()` on `None`) the
descriptor title is "Error" and the status carries the exception kind and
the exception text. -/
theorem update_chart_failure_modes (p : Provider) (today : Int)
    (ticker range_key : Option String) :
    (pyUpper (pyStrip (ticker.getD "")) = "" → effective_ticker ticker = DEFAULT_TICKER)
    ∧ (pyUpper (pyStrip (ticker.getD "")) ≠ "" →
        effective_ticker ticker = pyUpper (pyStrip (ticker.getD "")))
    ∧ ((fetch_history p (effective_ticker ticker)
          (compute_window_endpoints range_key (get_last_trading_day today)).1
          (compute_window_endpoints range_key (get_last_trading_day today)).2).series.data = [] →
        strContains (update_chart p today ticker range_key).1.title "No data"
        ∧ strContains (update_chart p today ticker range_key).1.title (effective_ticker ticker)
        ∧ strContains (update_chart p today ticker range_key).1.title
            (toString (compute_window_endpoints range_key (get_last_trading_day today)).1)
        ∧ strContains (update_chart p today ticker range_key).1.title
            (toString (compute_window_endpoints range_key (get_last_trading_day today)).2)
        ∧ (update_chart p today ticker range_key).2
            = "No rows returned for " ++ effective_ticker ticker ++ ".")
    ∧ ((fetch_history p (effective_ticker ticker)
          (compute_window_endpoints range_key (get_last_trading_day today)).1
          (compute_window_endpoints range_key (get_last_trading_day today)).2).series.data ≠ [] →
        range_key = none →
        (update_chart p today ticker range_key).1.title = "Error"
        ∧ strContains (update_chart p today ticker range_key).2 "AttributeError"
        ∧ strContains (update_chart p today ticker range_key).2 noneUpperText) := by
  refine ⟨?_, ?_, ?_, ?_⟩
  · intro h0
    unfold effective_ticker
    rw [if_pos h0]
  · intro h0
    unfold effective_ticker
    rw [if_neg h0]
  · intro hemp
    simp only [update_chart]
    rw [if_pos hemp]
    have hn := noDataTitle_names (effective_ticker ticker)
      (compute_window_endpoints range_key (get_last_trading_day today)).1
      (compute_window_endpoints range_key (get_last_trading_day today)).2
    exact ⟨hn.1, hn.2.1, hn.2.2.1, hn.2.2.2, rfl⟩
  · intro hne hnone
    subst hnone
    simp only [update_chart]
    rw [if_neg hne]
    exact ⟨rfl, by decide, by decide⟩

/-- Witness for the amended C7: blank ticker input defaults to AAPL and the
empty-fetch branch produces the "No data" title plus the per-ticker status. -/
theorem update_chart_failure_modes_witness :
    effective_ticker (some "  ") = DEFAULT_TICKER
    ∧ strContains (update_chart pEmpty 0 (some " aapl ") (some "1m")).1.title "No data"
    ∧ (update_chart pEmpty 0 (some " aapl ") (some "1m")).2
        = "No rows returned for " ++ effective_ticker (some " aapl ") ++ "." := by
  have hblank := (update_chart_failure_modes pEmpty 0 (some "  ") (some "1m")).1 (by decide)
  have hempty := (update_chart_failure_modes pEmpty 0 (some " aapl ") (some "1m")).2.2.1
    (by decide)
  exact ⟨hblank, hempty.1, hempty.2.2.2.2⟩

/-- C7 counterexample: on an empty fetch the status message does not name
the window: only the descriptor title carries the window dates, while the
status names just the ticker. -/
theorem update_chart_status_lacks_window :
    (update_chart pEmpty 0 (some "AAPL") (some "1m")).2 = "No rows returned for AAPL."
    ∧ ¬ strContains (update_chart pEmpty 0 (some "AAPL") (some "1m")).2
        (toString (compute_window_endpoints (some "1m") (get_last_trading_day 0)).1)
    ∧ ¬ strContains (update_chart pEmpty 0 (some "AAPL") (some "1m")).2
        (toString (compute_window_endpoints (some "1m") (get_last_trading_day 0)).2) := by
  refine ⟨by decide, by decide, by decide⟩

end FinDash